import Mathlib

/-!
Verification of WebFS (src/WebFS/webfs.c), a minimal single-file HTTP file
manager.  The C sources are shallowly embedded: C strings become `List Char`
values truncated at the first NUL where the original code relies on
NUL-terminated semantics, byte buffers become `List Nat` (each element < 256),
and the POSIX filesystem is an association list from path-segment lists to
nodes (file / directory / symbolic link).  Each definition mirrors one C
function of the same name.
-/

namespace WebFS

/-! ## C character classification and string helpers -/

/-- C `isspace` for the default locale: space, tab, newline, vertical tab,
form feed, carriage return. -/
def isSpaceC (c : Char) : Bool :=
  c = ' ' || c = '\t' || c = '\n' || c = '\x0b' || c = '\x0c' || c = '\r'

/-- C `tolower` (ASCII). -/
def toLowerC (c : Char) : Char :=
  if 'A' ≤ c ∧ c ≤ 'Z' then Char.ofNat (c.toNat + 32) else c

/-- Case-insensitive equality of two character lists (`strcasecmp` = 0). -/
def ciEqL (a b : List Char) : Bool :=
  a.map toLowerC = b.map toLowerC

/-- `strncasecmp l pat (pat.length) = 0`: `pat` is a case-insensitive
prefix of `l`. -/
def ciPrefixL (pat l : List Char) : Bool :=
  ciEqL (l.take pat.length) pat

/-- C-string view of a buffer: the bytes before the first NUL. -/
def cstrC (l : List Char) : List Char :=
  l.takeWhile (fun c => c ≠ '\x00')

/-- C-string view of a byte buffer: the bytes before the first 0. -/
def cstrB (l : List Nat) : List Nat :=
  l.takeWhile (fun b => b ≠ 0)

/-- Bytes of a Lean string (the embedding of a C string literal). -/
def strBytes (s : String) : List Nat :=
  s.data.map Char.toNat

/-- `skipWsC` models the `while (*p && isspace(*p)) p++` idiom. -/
def skipWsC (l : List Char) : List Char :=
  l.dropWhile isSpaceC

/-- First index at which `pat` occurs in `l` (C `strstr`), or `none`. -/
def findSub (l pat : List Char) : Option Nat :=
  match l with
  | [] => if pat = [] then some 0 else none
  | _ :: rest =>
    if pat.isPrefixOf l then some 0
    else (findSub rest pat).map (· + 1)

/-- First index at which `pat` occurs case-insensitively in `l`
(`my_strcasestr`, webfs.c lines 178-196), or `none`. -/
def findSubCI (l pat : List Char) : Option Nat :=
  match l with
  | [] => if pat = [] then some 0 else none
  | _ :: rest =>
    if ciPrefixL pat l then some 0
    else (findSubCI rest pat).map (· + 1)

/-- C `atoi`: skip whitespace, optional sign, then greedy digits. -/
def atoiC (l : List Char) : Int :=
  let l1 := skipWsC l
  let (neg, l2) : Bool × List Char :=
    match l1 with
    | '-' :: r => (true, r)
    | '+' :: r => (false, r)
    | r => (false, r)
  let digits := l2.takeWhile Char.isDigit
  let n : Nat := digits.foldl (fun a c => a * 10 + (c.toNat - 48)) 0
  if neg then -(n : Int) else (n : Int)

/-! ## url_decode (webfs.c lines 69-83) -/

/-- Value of a hex digit character. -/
def hexVal (c : Char) : Nat :=
  if c.isDigit then c.toNat - 48
  else if 'a' ≤ c ∧ c ≤ 'f' then c.toNat - 87
  else if 'A' ≤ c ∧ c ≤ 'F' then c.toNat - 70
  else 0

/-- C `isxdigit`. -/
def isHexC (c : Char) : Bool :=
  c.isDigit || ('a' ≤ c && c ≤ 'f') || ('A' ≤ c && c ≤ 'F')

/-- `url_decode` (webfs.c lines 69-83): `%XX` becomes the byte `XX` when both
hex digits are present, `+` becomes a space, everything else is copied. -/
def url_decode : List Char → List Char
  | [] => []
  | '%' :: h1 :: h2 :: rest2 =>
    if isHexC h1 && isHexC h2 then
      Char.ofNat (16 * hexVal h1 + hexVal h2) :: url_decode rest2
    else '%' :: url_decode (h1 :: h2 :: rest2)
  | '%' :: rest => '%' :: url_decode rest
  | '+' :: rest => ' ' :: url_decode rest
  | c :: rest => c :: url_decode rest

/-! ## join_path (webfs.c lines 86-119) -/

/-- Accumulator version of the `strtok_r(s, "/")` loop; `cur` holds the
characters of the current run in reverse. -/
def tokizeAux : List Char → List Char → List (List Char)
  | [], cur => if cur = [] then [] else [cur.reverse]
  | c :: rest, cur =>
    if c = '/' then
      if cur = [] then tokizeAux rest []
      else cur.reverse :: tokizeAux rest []
    else tokizeAux rest (c :: cur)

/-- `strtok_r(s, "/")` loop: the nonempty runs between slashes. -/
def tokize (l : List Char) : List (List Char) :=
  tokizeAux l []

/-- Index of the last `/` in a buffer (C `strrchr(buf, '/')`), if any. -/
def lastSlashIdx (l : List Char) : Option Nat :=
  match l with
  | [] => none
  | c :: rest =>
    match lastSlashIdx rest with
    | some i => some (i + 1)
    | none => if c = '/' then some 0 else none

/-- The `..` case of `join_path`: `last = strrchr(outbuf,'/'); if (last)
*last = 0;` — truncate at the last slash, or leave unchanged when there is
no slash. -/
def cutLastSlash (l : List Char) : List Char :=
  match lastSlashIdx l with
  | some i => l.take i
  | none => l

/-- The token-collapsing loop of `join_path` (webfs.c lines 97-107):
`..` pops up to the last slash of the accumulator, `.` is dropped,
any other token is appended with a `/` separator. -/
def collapse : List (List Char) → List Char → List Char
  | [], acc => acc
  | t :: ts, acc =>
    if t = ['.', '.'] then collapse ts (cutLastSlash acc)
    else if t = ['.'] then collapse ts acc
    else collapse ts (if acc = [] then t else acc ++ '/' :: t)

/-- `join_path` (webfs.c lines 86-119) on character lists: URL-decode the
request path (C-string truncated at any decoded NUL), cut at the first `?`,
drop one leading slash, prepend `root ++ "/"` (root defaulting to "/"), then
collapse `.` and `..` over the combined token list.  Note the collapse runs
over root and request segments together, so `..` can pop root segments. -/
def join_pathL (root reqpath : List Char) : List Char :=
  let decoded := cstrC (url_decode reqpath)
  let d2 := decoded.takeWhile (fun c => c ≠ '?')
  let p := match d2 with
           | '/' :: rest => rest
           | other => other
  let rootEff := if root = [] then ['/'] else root
  let tmp := rootEff ++ '/' :: p
  let ob := collapse (tokize tmp) []
  if ob = [] then ['/']
  else if root.head? = some '/' then
    (if ob.head? = some '/' then ob else '/' :: ob)
  else ob

/-- `join_path` on Lean strings. -/
def join_path (root reqpath : String) : String :=
  ⟨join_pathL root.data reqpath.data⟩

/-! ## Filesystem model

The POSIX filesystem the handlers act on is modelled as an association list
from absolute paths (lists of `/`-separated segments) to nodes.  The root
`[]` is always a directory.  Symbolic links are followed (with a fuel bound
standing for `SYMLOOP_MAX`) when the code uses `stat`/`open`/`opendir`, and
not followed when it uses `lstat` — following is modelled at the final
component, which is the only place the claims distinguish the two. -/

/-- A filesystem node: regular file with contents, directory, or symlink. -/
inductive Node where
  | file (content : List Nat)
  | dir
  | symlink (target : List String)
deriving DecidableEq, Repr

/-- Finite-map filesystem state. -/
def FS := List (List String × Node)

instance : DecidableEq FS := by unfold FS; infer_instance

/-- Association-list search. -/
def assocFind : FS → List String → Option Node
  | [], _ => none
  | (k, v) :: rest, q => if k = q then some v else assocFind rest q

/-- `lstat`: look a path up without following a symlink at it.  The root
`[]` always exists and is a directory. -/
def lookupFS (fs : FS) (p : List String) : Option Node :=
  if p = [] then some Node.dir else assocFind fs p

/-- Bind or rebind a path (used for `open(O_CREAT|O_TRUNC)` and `mkdir`). -/
def setNode (fs : FS) (k : List String) (v : Node) : FS :=
  (k, v) :: fs.filter (fun kv => kv.1 ≠ k)

/-- Remove a binding (used for `unlink`). -/
def removeKey (fs : FS) (k : List String) : FS :=
  fs.filter (fun kv => kv.1 ≠ k)

/-- Follow a chain of symlinks at the final component, with fuel standing
for the kernel's `SYMLOOP_MAX`; `none` models `ELOOP`. -/
def resolveKey (fs : FS) (p : List String) : Nat → Option (List String)
  | 0 => none
  | fuel + 1 =>
    match lookupFS fs p with
    | some (Node.symlink t) => resolveKey fs t fuel
    | _ => some p

/-- `stat`: look up following symlinks. -/
def statNode (fs : FS) (p : List String) : Option Node :=
  match resolveKey fs p 40 with
  | none => none
  | some k => lookupFS fs k

/-- Path segments of a filesystem path string (how the OS reads the joined
path: split on `/`, empty segments insignificant). -/
def segsOf (s : String) : List String :=
  (tokize s.data).map (fun l => String.mk l)

/-- The parent of `p` resolves to an existing directory (the precondition the
OS imposes on `mkdir` and `open(O_CREAT)` of `p`). -/
def parentIsDir (fs : FS) (p : List String) : Prop :=
  statNode fs p.dropLast = some Node.dir

instance (fs : FS) (p : List String) : Decidable (parentIsDir fs p) := by
  unfold parentIsDir; infer_instance

/-- One best-effort `mkdir(path, 0755)` call: creates the directory when the
path does not exist and its parent is a directory; any failure (`EEXIST`,
`ENOENT`, ...) is ignored by the callers, so it leaves the state unchanged. -/
def mkdir1 (fs : FS) (p : List String) : FS :=
  if lookupFS fs p = none ∧ parentIsDir fs p then setNode fs p Node.dir else fs

/-- The accumulated `strtok_r`/`mkdir` loop shared by `api_mkdir`
(webfs.c lines 1826-1838) and `api_upload`'s parent creation (lines
1786-1800): `mkdir` each path prefix `acc ++ [t₁]`, `acc ++ [t₁, t₂]`, ...
in order, ignoring failures. -/
def mkdirAll (fs : FS) (acc : List String) : List String → FS
  | [] => fs
  | t :: rest => mkdirAll (mkdir1 fs (acc ++ [t])) (acc ++ [t]) rest

/-- `open(path, O_CREAT|O_TRUNC|O_WRONLY)` target resolution: follow a
symlink chain at the final component; fail on `ELOOP`, on a directory, and
on a nonexistent path whose parent is not an existing directory.  Returns
the key at which the written file will be bound. -/
def openTarget (fs : FS) (p : List String) : Option (List String) :=
  match resolveKey fs p 40 with
  | none => none
  | some k =>
    match lookupFS fs k with
    | some (Node.file _) => some k
    | some Node.dir => none
    | some (Node.symlink _) => none
    | none => if parentIsDir fs k then some k else none

/-- `rmdir`: succeeds only on a nonroot empty directory binding. -/
def rmdirFS (fs : FS) (p : List String) : Option FS :=
  if p = [] then none
  else if fs.any (fun kv => kv.1.dropLast = p ∧ kv.1 ≠ []) then none
  else some (removeKey fs p)

/-- `readdir` enumeration: the (name, lstat-node) pairs of the entries
directly under directory key `p`, in filesystem-native (binding) order. -/
def childrenOf (fs : FS) (p : List String) : List (String × Node) :=
  fs.filterMap (fun kv =>
    if kv.1.dropLast = p then kv.1.getLast?.map (fun n => (n, kv.2)) else none)

/-! ## HTTP responses -/

/-- One HTTP response as assembled by `send_headers` (webfs.c lines 159-175)
followed by a body: status code and text, the `Content-Type` argument
(`none` embeds the C `NULL`), the `Content-Length` value, the `extra` header
block argument, and the body bytes. -/
structure Resp where
  code : Nat
  status : String
  ctype : Option String
  clen : Nat
  extra : Option String
  body : List Nat
deriving DecidableEq, Repr

/-- The header bytes `send_headers` (webfs.c lines 159-175) writes for a
response: status line, `Server`, `Connection: close`, `Content-Length`,
the optional `Content-Type` (the C `NULL` writes nothing), the optional
extra header block, blank line. -/
def send_headers_str (code : Nat) (status : String) (ctype : Option String)
    (clen : Nat) (extra : Option String) : List Char :=
  "HTTP/1.1 ".data ++ (toString code).data ++ " ".data ++ status.data ++
  "\r\n".data ++
  "Server: WebFS/0.1\r\n".data ++
  "Connection: close\r\n".data ++
  "Content-Length: ".data ++ (toString clen).data ++ "\r\n".data ++
  (match ctype with
   | some t => "Content-Type: ".data ++ t.data ++ "\r\n".data
   | none => []) ++
  (match extra with
   | some e => e.data
   | none => []) ++
  "\r\n".data

/-- The header bytes of a `Resp`. -/
def renderHeaders (r : Resp) : List Char :=
  send_headers_str r.code r.status r.ctype r.clen r.extra

/-! ## API handlers -/

/-- JSON escaping loop of `api_list` (webfs.c lines 1715-1721): backslash
before `"` and `\`, other characters copied. -/
def jesc : List Char → List Char
  | [] => []
  | c :: rest => if c = '"' || c = '\\' then '\\' :: c :: jesc rest
                 else c :: jesc rest

/-- One listing entry object as formatted by the `snprintf` at webfs.c lines
1726-1728: the name is escaped with `jesc`, the client path is emitted raw. -/
def listEntryJson (name clientpath ty : String) (size : Nat) : String :=
  "\x7b\"name\":\"" ++ ⟨jesc name.data⟩ ++ "\",\"path\":\"" ++ clientpath ++
  "\",\"type\":\"" ++ ty ++ "\",\"size\":" ++ toString size ++ "\x7d"

/-- The client-relative path of a listing entry (webfs.c lines 1722-1724). -/
def clientPathOf (reqpath name : String) : String :=
  if reqpath = "/" then "/" ++ name else reqpath ++ "/" ++ name

/-- The readdir loop body of `api_list` (webfs.c lines 1706-1731) over the
remaining entries: skip `.` and `..`, skip entries whose `stat` fails
(dangling symlinks), classify via `S_ISDIR`, append the JSON object, and
stop early once the output has grown past `sizeof(out) - 512` bytes. -/
def listLoop (fs : FS) (k : List String) (reqpath : String) :
    List (String × Node) → Bool → String → String
  | [], _, out => out
  | (name, _) :: rest, first, out =>
    if name = "." ∨ name = ".." then listLoop fs k reqpath rest first out
    else
      match statNode fs (k ++ [name]) with
      | none => listLoop fs k reqpath rest first out
      | some st =>
        let ty := if st = Node.dir then "dir" else "file"
        let size := match st with
                    | Node.file c => c.length
                    | _ => 0
        let entry := listEntryJson name (clientPathOf reqpath name) ty size
        let out2 := (if first then out else out ++ ",") ++ entry
        if out2.length > 8192 - 512 then out2
        else listLoop fs k reqpath rest false out2

/-- `api_list` (webfs.c lines 1691-1736).  If the resolved path cannot be
opened as a directory the response is `200` with body `[]`; otherwise the
entries are emitted as a JSON array.  (The 8 KiB `snprintf` hard truncation
is not modelled beyond the explicit early-stop check the code performs.) -/
def api_list (fs : FS) (root reqpath : String) : Resp :=
  let j := join_path root reqpath
  let segs := segsOf j
  let emptyResp : Resp :=
    ⟨200, "OK", some "application/json; charset=utf-8", 2, none, strBytes "[]"⟩
  match resolveKey fs segs 40 with
  | none => emptyResp
  | some k =>
    match lookupFS fs k with
    | some Node.dir =>
      let body := listLoop fs k reqpath (childrenOf fs k) true "[" ++ "]"
      ⟨200, "OK", some "application/json; charset=utf-8", body.length, none,
       strBytes body⟩
    | _ => emptyResp

/-- Suffix of a path from its last `.` (C `strrchr(fs, '.')`), if any. -/
def lastDotSuffix (l : List Char) : Option (List Char) :=
  match lastSlashIdx (l.map (fun c => if c = '.' then '/' else c)) with
  | some i => some (l.drop i)
  | none => none

/-- Content-Type inference of `api_download` (webfs.c lines 1757-1765):
case-insensitive match of the suffix from the last `.` of the whole
resolved path against a fixed table, default `application/octet-stream`. -/
def ctypeFor (pathStr : String) : String :=
  match lastDotSuffix pathStr.data with
  | none => "application/octet-stream"
  | some e =>
    if ciEqL e ".html".data || ciEqL e ".htm".data then "text/html"
    else if ciEqL e ".txt".data then "text/plain"
    else if ciEqL e ".json".data then "application/json"
    else if ciEqL e ".jpg".data || ciEqL e ".jpeg".data then "image/jpeg"
    else if ciEqL e ".png".data then "image/png"
    else "application/octet-stream"

/-- The `404 Not found` response of `api_download` (webfs.c lines 1744-1747). -/
def dlNotFound : Resp :=
  ⟨404, "Not Found", some "text/plain; charset=utf-8", 9, none,
   strBytes "Not found"⟩

/-- `api_download` (webfs.c lines 1739-1773): resolve the path; `404` when
`stat` fails or reports a directory, otherwise `200` with the file bytes,
`Content-Length = st.st_size` and the extension-inferred `Content-Type`.
(`open` succeeding after a successful `stat` of a regular file is the only
behaviour the model gives the race-free filesystem.) -/
def api_download (fs : FS) (root reqpath : String) : Resp :=
  let j := join_path root reqpath
  let segs := segsOf j
  match statNode fs segs with
  | some (Node.file c) => ⟨200, "OK", some (ctypeFor j), c.length, none, c⟩
  | _ => dlNotFound

/-- `201 Created` response shared by `api_upload` and `api_mkdir`. -/
def respCreated : Resp :=
  ⟨201, "Created", some "text/plain", 7, none, strBytes "Created"⟩

/-- `api_upload` (webfs.c lines 1776-1819): `400` on an empty body;
otherwise best-effort `mkdir` of every prefix of the resolved path's
dirname, then create-or-truncate the target and write the body.  A failing
`open` yields `500`; in the race-free model a complete `write` follows a
successful `open`, giving `201`. -/
def api_upload (fs : FS) (root reqpath : String) (body : List Nat) :
    FS × Resp :=
  if body.length = 0 then
    (fs, ⟨400, "Bad Request", some "text/plain", 7, none, strBytes "No body"⟩)
  else
    let j := join_path root reqpath
    let segs := segsOf j
    let fs1 := mkdirAll fs [] segs.dropLast
    match openTarget fs1 segs with
    | none =>
      (fs1, ⟨500, "Internal", some "text/plain", 6, none, strBytes "Failed"⟩)
    | some k => (setNode fs1 k (Node.file body), respCreated)

/-- `api_mkdir` (webfs.c lines 1822-1842): best-effort recursive `mkdir` of
every prefix of the resolved path, then unconditionally `201 Created`. -/
def api_mkdir (fs : FS) (root reqpath : String) : FS × Resp :=
  let segs := segsOf (join_path root reqpath)
  (mkdirAll fs [] segs, respCreated)

/-- The `204 No Content` response of `api_delete`: note the C passes `NULL`
for the Content-Type. -/
def resp204 : Resp := ⟨204, "No Content", none, 0, none, []⟩

/-- `api_delete` (webfs.c lines 1845-1859): classify the resolved path with
`lstat` (symlinks are not followed); `404` when it does not exist, `rmdir`
for a directory (failing with `500` when nonempty or the root), `unlink`
otherwise. -/
def api_delete (fs : FS) (root reqpath : String) : FS × Resp :=
  let segs := segsOf (join_path root reqpath)
  match lookupFS fs segs with
  | none =>
    (fs, ⟨404, "Not Found", some "text/plain", 9, none, strBytes "Not found"⟩)
  | some Node.dir =>
    match rmdirFS fs segs with
    | some fs2 => (fs2, resp204)
    | none =>
      (fs, ⟨500, "Internal", some "text/plain", 5, none, strBytes "Error"⟩)
  | some _ => (removeKey fs segs, resp204)

/-! ## Basic auth (webfs.c lines 121-144 and 1664-1686) -/

/-- `b64val` (webfs.c lines 122-129): value of a base64 alphabet character,
`none` (C `-1`) otherwise. -/
def b64val (c : Char) : Option Nat :=
  if 'A' ≤ c ∧ c ≤ 'Z' then some (c.toNat - 65)
  else if 'a' ≤ c ∧ c ≤ 'z' then some (c.toNat - 97 + 26)
  else if c.isDigit then some (c.toNat - 48 + 52)
  else if c = '+' then some 62
  else if c = '/' then some 63
  else none

/-- The accumulator loop of `b64dec_simple` (webfs.c lines 130-144):
non-alphabet characters are skipped (the decoder never fails), six bits are
shifted in per character, a byte is emitted whenever eight bits are
available, and the loop stops once 255 bytes (`outlen - 1`) are out.  The C
`int` accumulator is kept modulo 2^32; only its low bits reach the output. -/
def b64go : List Char → Nat → Nat → Nat → List Nat
  | [], _, _, _ => []
  | c :: rest, accum, bits, o =>
    if o ≥ 255 then []
    else
      match b64val c with
      | none => b64go rest accum bits o
      | some v =>
        let a2 := (accum * 64 + v) % 4294967296
        let bits2 := bits + 6
        if bits2 ≥ 8 then
          ((a2 >>> (bits2 - 8)) % 256) :: b64go rest a2 (bits2 - 8) (o + 1)
        else b64go rest a2 bits2 o

/-- `b64dec_simple` (webfs.c lines 130-144) as the list of emitted bytes. -/
def b64dec_simple (l : List Char) : List Nat :=
  b64go l 0 0 0

/-- `strchr(dec, ':')` split: the bytes before the first `58` and the bytes
after it, or `none` when there is no colon. -/
def splitColon : List Nat → Option (List Nat × List Nat)
  | [] => none
  | b :: rest =>
    if b = 58 then some ([], rest)
    else
      match splitColon rest with
      | some (u, p) => some (b :: u, p)
      | none => none

/-- The prefix handling of `check_basic_auth_header` (webfs.c lines
1668-1674): a value beginning with a case-insensitive `Authorization:` has
those 14 characters and the following whitespace skipped. -/
def stripAuthPrefix (v : List Char) : List Char :=
  if ciPrefixL "Authorization:".data v then skipWsC (v.drop 14) else v

/-- `check_basic_auth_header` (webfs.c lines 1665-1686): authorize
unconditionally when auth is disabled; otherwise reject a missing header;
skip an optional case-insensitive `Authorization:` prefix plus whitespace;
require a case-insensitive `Basic ` prefix; leniently base64-decode the
remainder; split the decoded C string at its first `:` and `strcmp` the two
parts against the configured user and password. -/
def check_basic_auth_header (enabled : Bool) (guser gpass : String)
    (value : Option (List Char)) : Bool :=
  if enabled = false then true
  else
    match value with
    | none => false
    | some value0 =>
      let v := stripAuthPrefix value0
      if ciPrefixL "Basic ".data v then
        let dec := cstrB (b64dec_simple (v.drop 6))
        match splitColon dec with
        | none => false
        | some (u, p) =>
          decide (u = strBytes guser) && decide (p = strBytes gpass)
      else false

/-! ## Request parsing (webfs.c lines 1587-1662) -/

/-- A parsed HTTP request (`struct http_req`). -/
structure HttpReq where
  method : List Char
  uri : List Char
  proto : List Char
  headers : List Char
  body : List Nat
deriving DecidableEq, Repr

/-- Negation of the C whitespace class, as `sscanf`'s `%s` uses it. -/
def nonWsC (c : Char) : Bool := ! isSpaceC c

/-- One `%Ns` conversion of `sscanf`: skip whitespace, then read at most
`width` non-whitespace characters; returns the token and the unconsumed
remainder. -/
def scanTok (l : List Char) (width : Nat) : List Char × List Char :=
  let s := skipWsC l
  let t := (s.takeWhile nonWsC).take width
  (t, s.drop t.length)

/-- `sscanf(buf, "%15s %1023s %15s", ...)` (webfs.c line 1603): three
width-capped tokens; the result is 3 (success) exactly when all three are
nonempty; anything after the third token is not examined. -/
def scan3 (line : List Char) :
    Option (List Char × List Char × List Char) :=
  let m := scanTok line 15
  if m.1 = [] then none
  else
    let u := scanTok m.2 1023
    if u.1 = [] then none
    else
      let pr := scanTok u.2 15
      if pr.1 = [] then none else some (m.1, u.1, pr.1)

/-- `header_get` (webfs.c lines 1653-1662): find the header name
case-insensitively anywhere in the header block, then the first `:` from
the match, skip whitespace; the value runs to the end of the header block
(the C code does not stop at the end of the line). -/
def header_get (headers : List Char) (name : String) : Option (List Char) :=
  match findSubCI headers name.data with
  | none => none
  | some i =>
    let fromMatch := headers.drop i
    match findSub fromMatch [':'] with
    | none => none
    | some j => some (skipWsC (fromMatch.drop (j + 1)))

/-- `parse_request` (webfs.c lines 1597-1650) on the initial `recv` buffer
`buf`, with `extra` the bytes later `recv` calls for the body can still
obtain from the connection.  Fails (C `-1`) on an empty read, on a missing
`CRLF`-terminated request line, or when `sscanf` matches fewer than three
tokens.  Without a blank-line terminator the request has no headers and no
body.  A `Content-Length` larger than the available bytes is tolerated:
the body is truncated to what was received. -/
def parse_request (buf extra : List Char) : Option HttpReq :=
  if buf = [] then none
  else
    let cb := cstrC buf
    match findSub cb "\r\n".data with
    | none => none
    | some lineIdx =>
      let line := cb.take lineIdx
      match scan3 line with
      | none => none
      | some (m, u, pr) =>
        let afterLine := cb.drop (lineIdx + 2)
        match findSub afterLine "\r\n\r\n".data with
        | none => some ⟨m, u, pr, [], []⟩
        | some hIdx =>
          let headers := afterLine.take (min hIdx 8191)
          let bodyStart := lineIdx + 2 + hIdx + 4
          let contentLen : Int :=
            match findSubCI headers "Content-Length:".data with
            | none => 0
            | some ci => atoiC (headers.drop (ci + 15))
          if contentLen > 0 then
            let clen := contentLen.toNat
            let tocopy := min (buf.length - bodyStart) clen
            let fromBuf := (buf.drop bodyStart).take tocopy
            let fromNet := extra.take (clen - tocopy)
            some ⟨m, u, pr, headers, (fromBuf ++ fromNet).map Char.toNat⟩
          else some ⟨m, u, pr, headers, []⟩

/-! ## Routing and the connection worker (webfs.c lines 1870-1942) -/

/-- Process-wide configuration (`g_root`, `g_user`, `g_pass`,
`g_auth_enabled`) plus the embedded UI asset, whose contents are out of
scope (spec section 1) and therefore a parameter. -/
structure Config where
  root : String
  user : String
  pass : String
  auth : Bool
  indexHtml : String

/-- The `401` response of `conn_thread` (webfs.c lines 1880-1887). -/
def resp401 : Resp :=
  ⟨401, "Unauthorized", some "text/plain", 13,
   some "WWW-Authenticate: Basic realm=\"WebFS\"\r\n",
   strBytes "Unauthorized\n"⟩

/-- The routers' `400 Bad Request` response for a missing path parameter. -/
def respBadReq : Resp :=
  ⟨400, "Bad Request", some "text/plain", 11, none, strBytes "Bad Request"⟩

/-- The router's fall-through `404 Not Found` response. -/
def respRoute404 : Resp :=
  ⟨404, "Not Found", some "text/plain", 9, none, strBytes "Not Found"⟩

/-- `serve_index` (webfs.c lines 1862-1866). -/
def serve_index (cfg : Config) : Resp :=
  ⟨200, "OK", some "text/html; charset=utf-8", cfg.indexHtml.length, none,
   strBytes cfg.indexHtml⟩

/-- Extraction of the `path` query parameter as every API route performs it
(webfs.c lines 1893-1931): find `?`, find `path=` in the query string, cut
at the next `&`, URL-decode.  `none` when either search fails. -/
def pathParam (uri : List Char) : Option String :=
  match findSub uri ['?'] with
  | none => none
  | some qi =>
    let tail := uri.drop (qi + 1)
    match findSub tail "path=".data with
    | none => none
    | some pi =>
      let p := (tail.drop (pi + 5)).takeWhile (fun c => c ≠ '&')
      some ⟨cstrC (url_decode p)⟩

/-- The routing chain of `conn_thread` (webfs.c lines 1890-1937): method is
compared case-insensitively, the URI by literal prefix; `list` defaults a
missing path parameter to `/`, the other API routes answer `400`; any
unmatched pair answers `404`. -/
def route_request (cfg : Config) (fs : FS) (req : HttpReq) :
    List Resp × FS :=
  let uri := req.uri
  if ciEqL req.method "GET".data ∧
     (uri = "/".data ∨ uri.take 6 = "/?path".data) then
    ([serve_index cfg], fs)
  else if ciEqL req.method "GET".data ∧ uri.take 9 = "/api/list".data then
    match pathParam uri with
    | none => ([api_list fs cfg.root "/"], fs)
    | some p => ([api_list fs cfg.root p], fs)
  else if ciEqL req.method "GET".data ∧
          uri.take 13 = "/api/download".data then
    match pathParam uri with
    | none => ([respBadReq], fs)
    | some p => ([api_download fs cfg.root p], fs)
  else if ciEqL req.method "PUT".data ∧ uri.take 11 = "/api/upload".data then
    match pathParam uri with
    | none => ([respBadReq], fs)
    | some p =>
      let r := api_upload fs cfg.root p req.body
      ([r.2], r.1)
  else if ciEqL req.method "POST".data ∧ uri.take 10 = "/api/mkdir".data then
    match pathParam uri with
    | none => ([respBadReq], fs)
    | some p =>
      let r := api_mkdir fs cfg.root p
      ([r.2], r.1)
  else if ciEqL req.method "POST".data ∧
          uri.take 11 = "/api/delete".data then
    match pathParam uri with
    | none => ([respBadReq], fs)
    | some p =>
      let r := api_delete fs cfg.root p
      ([r.2], r.1)
  else ([respRoute404], fs)

/-- `conn_thread` (webfs.c lines 1870-1942): one bounded `recv` (`net` is
the byte stream the connection can deliver, of which the first 8192 bytes
fit the initial read), parse, auth gate, route.  The result is the list of
responses written to the socket (empty when the connection is dropped
without an answer) and the final filesystem state. -/
def conn_thread (cfg : Config) (fs : FS) (net : List Char) :
    List Resp × FS :=
  let buf := net.take 8192
  if buf = [] then ([], fs)
  else
    match parse_request buf (net.drop 8192) with
    | none => ([], fs)
    | some req =>
      let authhdr := header_get req.headers "Authorization"
      if check_basic_auth_header cfg.auth cfg.user cfg.pass authhdr then
        route_request cfg fs req
      else ([resp401], fs)

/-! ## Specification-side predicates

These definitions follow the words of the specification and its claims (not
the C control flow); the theorems below compare the code embeddings against
them. -/

/-- Parent-closure well-formedness: every existing nonroot path has an
existing parent binding.  All states reachable from a real filesystem are
parent-closed; the model's raw association lists also admit orphan
bindings, which this excludes. -/
def wellFormed (fs : FS) : Prop :=
  ∀ p : List String, p ≠ [] → lookupFS fs p ≠ none →
    lookupFS fs p.dropLast ≠ none

/-- The authorization condition in the claim's terms: after the optional
`Authorization:` prefix skip, the value begins with `Basic `
(case-insensitively) and the lenient base64 decode of the remainder (as a C
string) is the configured user, a colon, and the configured password, the
colon being the first one. -/
def basicAuthSpec (guser gpass : String) (value0 : List Char) : Prop :=
  ciPrefixL "Basic ".data (stripAuthPrefix value0) = true ∧
  ∃ u p, cstrB (b64dec_simple ((stripAuthPrefix value0).drop 6)) =
      u ++ 58 :: p ∧ 58 ∉ u ∧ u = strBytes guser ∧ p = strBytes gpass

/-- First maximal nonwhitespace run of a line (spec-side tokenization). -/
def run1 (l : List Char) : List Char :=
  (l.dropWhile isSpaceC).takeWhile nonWsC

/-- What remains of the line after its first run. -/
def rest1 (l : List Char) : List Char :=
  (l.dropWhile isSpaceC).drop (run1 l).length

/-- Second maximal nonwhitespace run. -/
def run2 (l : List Char) : List Char := run1 (rest1 l)

/-- What remains after the second run. -/
def rest2 (l : List Char) : List Char := rest1 (rest1 l)

/-- Third maximal nonwhitespace run. -/
def run3 (l : List Char) : List Char := run1 (rest2 l)

/-- A request line on which `sscanf("%15s %1023s %15s")` matches fewer than
three tokens: no run at all; a single run too short (at most 15 + 1023
characters) to be split into three width-capped tokens; or two runs that
both fit their fields (at most 15 and 1023 characters), leaving nothing for
the third.  (A run longer than a field's width is split into further
tokens, which is why a line with fewer than three whitespace-separated
runs can still parse.) -/
def malformedLine (l : List Char) : Prop :=
  run1 l = [] ∨
  (run2 l = [] ∧ (run1 l).length ≤ 1038) ∨
  (run3 l = [] ∧ (run1 l).length ≤ 15 ∧ (run2 l).length ≤ 1023)

instance (l : List Char) : Decidable (malformedLine l) := by
  unfold malformedLine; infer_instance

/-! ## Filesystem lemmas -/

theorem assocFind_filter_ne (fs : FS) (k q : List String) (h : q ≠ k) :
    assocFind (fs.filter (fun kv => kv.1 ≠ k)) q = assocFind fs q := by
  induction fs with
  | nil => rfl
  | cons kv rest ih =>
    by_cases hk : kv.1 = k
    · have hkq : ¬ (kv.1 = q) := by rw [hk]; exact fun e => h e.symm
      simp only [List.filter_cons, hk]
      simp only [assocFind, hkq, if_false]
      simpa using ih
    · by_cases hq : kv.1 = q
      · simp only [List.filter_cons]
        simp only [decide_not, hk, decide_False, Bool.not_false, if_true]
        simp [assocFind, hq]
      · simp only [List.filter_cons]
        simp only [decide_not, hk, decide_False, Bool.not_false, if_true]
        simp only [assocFind, hq, if_false]
        simpa using ih

theorem lookupFS_setNode_self (fs : FS) (k : List String) (v : Node)
    (hk : k ≠ []) : lookupFS (setNode fs k v) k = some v := by
  simp [lookupFS, setNode, assocFind, hk]

theorem lookupFS_setNode_ne (fs : FS) (k q : List String) (v : Node)
    (h : q ≠ k) : lookupFS (setNode fs k v) q = lookupFS fs q := by
  unfold lookupFS setNode
  by_cases hq : q = []
  · simp [hq]
  · have hkq : ¬ (k = q) := fun e => h e.symm
    simp only [hq, if_false]
    simp only [assocFind, hkq, if_false]
    exact assocFind_filter_ne fs k q h

theorem lookupFS_removeKey_self (fs : FS) (k : List String) (hk : k ≠ []) :
    lookupFS (removeKey fs k) k = none := by
  unfold lookupFS removeKey
  simp only [hk, if_false]
  induction fs with
  | nil => rfl
  | cons kv rest ih =>
    by_cases h : kv.1 = k
    · simpa [List.filter, h] using ih
    · simpa [List.filter, h, assocFind, h] using ih

theorem lookupFS_removeKey_ne (fs : FS) (k q : List String) (h : q ≠ k) :
    lookupFS (removeKey fs k) q = lookupFS fs q := by
  unfold lookupFS removeKey
  by_cases hq : q = []
  · simp [hq]
  · simp only [hq, if_false]
    exact assocFind_filter_ne fs k q h

theorem resolveKey_not_symlink (fs : FS) (p k : List String) (fuel : Nat)
    (h : resolveKey fs p fuel = some k) :
    ∀ t, lookupFS fs k ≠ some (Node.symlink t) := by
  induction fuel generalizing p with
  | zero => simp [resolveKey] at h
  | succ n ih =>
    rw [resolveKey] at h
    cases hl : lookupFS fs p with
    | none =>
      rw [hl] at h
      cases h
      intro t hc
      rw [hl] at hc
      cases hc
    | some nd =>
      cases nd with
      | symlink t => rw [hl] at h; exact ih t h
      | file c =>
        rw [hl] at h
        cases h
        intro t hc
        rw [hl] at hc
        cases hc
      | dir =>
        rw [hl] at h
        cases h
        intro t hc
        rw [hl] at hc
        cases hc

theorem resolveKey_setNode (fs : FS) (p k : List String) (v : Node)
    (fuel : Nat) (h : resolveKey fs p fuel = some k)
    (hv : ∀ t, v ≠ Node.symlink t) :
    resolveKey (setNode fs k v) p fuel = some k := by
  induction fuel generalizing p with
  | zero => simp [resolveKey] at h
  | succ n ih =>
    rw [resolveKey] at h
    by_cases hpk : p = k
    · subst hpk
      rw [resolveKey]
      by_cases hp : p = []
      · have hlu : lookupFS (setNode fs p v) p = some Node.dir := by
          simp [lookupFS, hp]
        rw [hlu]
      · rw [lookupFS_setNode_self fs p v hp]
        cases v with
        | symlink t => exact absurd rfl (hv t)
        | file c => rfl
        | dir => rfl
    · rw [resolveKey, lookupFS_setNode_ne fs k p v hpk]
      cases hl : lookupFS fs p with
      | none => rw [hl] at h; cases h; exact absurd rfl hpk
      | some nd =>
        cases nd with
        | symlink t => rw [hl] at h; exact ih t h
        | file c => rw [hl] at h; cases h; exact absurd rfl hpk
        | dir => rw [hl] at h; cases h; exact absurd rfl hpk

theorem openTarget_spec (fs : FS) (p k : List String)
    (h : openTarget fs p = some k) :
    resolveKey fs p 40 = some k ∧
    (lookupFS fs k = none ∨ ∃ c, lookupFS fs k = some (Node.file c)) := by
  unfold openTarget at h
  split at h
  · cases h
  · next k2 hr =>
    split at h
    · next c hl => cases h; exact ⟨hr, Or.inr ⟨c, hl⟩⟩
    · cases h
    · cases h
    · next hl =>
      split at h
      · cases h; exact ⟨hr, Or.inl hl⟩
      · cases h

theorem statNode_dir_exists (fs : FS) (r : List String)
    (h : statNode fs r = some Node.dir) : lookupFS fs r ≠ none := by
  intro hnone
  unfold statNode at h
  have hres : resolveKey fs r 40 = some r := by
    rw [resolveKey, hnone]
  rw [hres] at h
  have h2 : lookupFS fs r = some Node.dir := h
  rw [hnone] at h2
  cases h2

theorem mkdir1_noop_of_some (fs : FS) (p : List String) (n : Node)
    (h : lookupFS fs p = some n) : mkdir1 fs p = fs := by
  unfold mkdir1
  rw [if_neg (fun hc => by rw [h] at hc; exact Option.noConfusion hc.1)]

/-! ## mkdir lemmas -/

theorem lookupFS_setNode_ne_none (fs : FS) (k q : List String) (v : Node)
    (h : lookupFS fs q ≠ none) : lookupFS (setNode fs k v) q ≠ none := by
  by_cases hq : q = k
  · subst hq
    by_cases hk : q = []
    · simp [lookupFS, hk]
    · rw [lookupFS_setNode_self fs q v hk]; simp
  · rw [lookupFS_setNode_ne fs k q v hq]; exact h

theorem mkdir1_lookup_mono (fs : FS) (p q : List String) (n : Node)
    (h : lookupFS fs p = some n) : lookupFS (mkdir1 fs q) p = some n := by
  unfold mkdir1
  split
  · next hc =>
    have hpq : p ≠ q := fun hpq => by rw [hpq, hc.1] at h; cases h
    rw [lookupFS_setNode_ne fs q p Node.dir hpq]; exact h
  · exact h

theorem mkdirAll_lookup_mono (segs : List String) :
    ∀ (fs : FS) (acc p : List String) (n : Node),
      lookupFS fs p = some n → lookupFS (mkdirAll fs acc segs) p = some n := by
  induction segs with
  | nil => intro fs acc p n h; exact h
  | cons t rest ih =>
    intro fs acc p n h
    exact ih (mkdir1 fs (acc ++ [t])) (acc ++ [t]) p n
      (mkdir1_lookup_mono fs p (acc ++ [t]) n h)

theorem wellFormed_mkdir1 (fs : FS) (q : List String)
    (hwf : wellFormed fs) : wellFormed (mkdir1 fs q) := by
  unfold mkdir1
  split
  · next hc =>
    intro p hp hne
    by_cases hpq : p = q
    · subst hpq
      have hpar : lookupFS fs p.dropLast ≠ none :=
        statNode_dir_exists fs p.dropLast hc.2
      exact lookupFS_setNode_ne_none fs p p.dropLast Node.dir hpar
    · rw [lookupFS_setNode_ne fs q p Node.dir hpq] at hne
      exact lookupFS_setNode_ne_none fs q p.dropLast Node.dir
        (hwf p hp hne)
  · exact hwf

theorem mkdirAll_tail_noop (rest : List String) :
    ∀ (fs : FS) (p : List String), wellFormed fs → lookupFS fs p = none →
      mkdirAll fs p rest = fs := by
  induction rest with
  | nil => intro fs p _ _; rfl
  | cons t rest2 ih =>
    intro fs p hwf hp
    have hpnil : p ≠ [] := by
      intro h; rw [h] at hp; simp [lookupFS] at hp
    have hq : lookupFS fs (p ++ [t]) = none := by
      by_cases h : lookupFS fs (p ++ [t]) = none
      · exact h
      · exfalso
        have := hwf (p ++ [t]) (by simp) h
        rw [show (p ++ [t]).dropLast = p by simp] at this
        exact this hp
    have hnd : ¬ parentIsDir fs (p ++ [t]) := by
      unfold parentIsDir
      rw [show (p ++ [t]).dropLast = p by simp]
      unfold statNode
      rw [show resolveKey fs p 40 = some p by rw [resolveKey, hp]]
      intro hc
      have hc2 : lookupFS fs p = some Node.dir := hc
      rw [hp] at hc2
      cases hc2
    have hstep : mkdir1 fs (p ++ [t]) = fs := by
      unfold mkdir1
      rw [if_neg (fun hc => hnd hc.2)]
    simp only [mkdirAll]
    rw [hstep]
    exact ih fs (p ++ [t]) hwf hq

theorem mkdirAll_idem (segs : List String) :
    ∀ (fs : FS) (acc : List String), wellFormed fs →
      mkdirAll (mkdirAll fs acc segs) acc segs = mkdirAll fs acc segs := by
  induction segs with
  | nil => intro fs acc _; rfl
  | cons t rest ih =>
    intro fs acc hwf
    by_cases h1 : lookupFS fs (acc ++ [t]) = none
    · by_cases h2 : parentIsDir fs (acc ++ [t])
      · have hstep : mkdir1 fs (acc ++ [t]) =
            setNode fs (acc ++ [t]) Node.dir := by
          unfold mkdir1; rw [if_pos ⟨h1, h2⟩]
        have hself : lookupFS (mkdir1 fs (acc ++ [t])) (acc ++ [t]) =
            some Node.dir := by
          rw [hstep]
          exact lookupFS_setNode_self fs (acc ++ [t]) Node.dir (by simp)
        have hF : lookupFS (mkdirAll (mkdir1 fs (acc ++ [t])) (acc ++ [t])
            rest) (acc ++ [t]) = some Node.dir :=
          mkdirAll_lookup_mono rest (mkdir1 fs (acc ++ [t])) (acc ++ [t])
            (acc ++ [t]) Node.dir hself
        have hnoop : mkdir1 (mkdirAll (mkdir1 fs (acc ++ [t])) (acc ++ [t])
            rest) (acc ++ [t]) =
            mkdirAll (mkdir1 fs (acc ++ [t])) (acc ++ [t]) rest :=
          mkdir1_noop_of_some _ _ Node.dir hF
        simp only [mkdirAll]
        rw [hnoop]
        exact ih (mkdir1 fs (acc ++ [t])) (acc ++ [t])
          (wellFormed_mkdir1 fs (acc ++ [t]) hwf)
      · have hstep : mkdir1 fs (acc ++ [t]) = fs := by
          unfold mkdir1; rw [if_neg (fun hc => h2 hc.2)]
        have hF : mkdirAll fs (acc ++ [t]) rest = fs :=
          mkdirAll_tail_noop rest fs (acc ++ [t]) hwf h1
        simp only [mkdirAll]
        rw [hstep, hF, hstep, hF]
    · have hstep : mkdir1 fs (acc ++ [t]) = fs := by
        unfold mkdir1; rw [if_neg (fun hc => h1 hc.1)]
      obtain ⟨n, hn⟩ : ∃ n, lookupFS fs (acc ++ [t]) = some n := by
        cases h : lookupFS fs (acc ++ [t]) with
        | none => exact absurd h h1
        | some n => exact ⟨n, rfl⟩
      have hF : lookupFS (mkdirAll fs (acc ++ [t]) rest) (acc ++ [t]) =
          some n := mkdirAll_lookup_mono rest fs (acc ++ [t]) (acc ++ [t]) n hn
      have hnoop : mkdir1 (mkdirAll fs (acc ++ [t]) rest) (acc ++ [t]) =
          mkdirAll fs (acc ++ [t]) rest :=
        mkdir1_noop_of_some _ _ n hF
      simp only [mkdirAll]
      rw [hstep, hnoop]
      exact ih fs (acc ++ [t]) hwf

/-! ## Auth lemmas -/

theorem splitColon_some_of (u p : List Nat) (h58 : 58 ∉ u) :
    splitColon (u ++ 58 :: p) = some (u, p) := by
  induction u with
  | nil => simp [splitColon]
  | cons b u2 ih =>
    have hb : ¬ (b = 58) := fun he => h58 (he ▸ List.mem_cons_self b u2)
    have ih2 := ih (fun hm => h58 (List.mem_cons_of_mem b hm))
    simp [splitColon, hb, ih2]

theorem splitColon_spec (l : List Nat) :
    ∀ u p, splitColon l = some (u, p) → l = u ++ 58 :: p ∧ 58 ∉ u := by
  induction l with
  | nil => intro u p h; simp [splitColon] at h
  | cons b rest ih =>
    intro u p h
    by_cases hb : b = 58
    · subst hb
      rw [splitColon, if_pos rfl] at h
      obtain ⟨hu, hp⟩ : [] = u ∧ rest = p := by
        constructor <;> cases h <;> rfl
      subst hu
      subst hp
      exact ⟨rfl, by simp⟩
    · rw [splitColon, if_neg hb] at h
      cases hs : splitColon rest with
      | none => rw [hs] at h; cases h
      | some up =>
        rw [hs] at h
        obtain ⟨hu, hp⟩ : b :: up.1 = u ∧ up.2 = p := by
          constructor <;> cases h <;> rfl
        subst hu
        subst hp
        obtain ⟨hrest, hnot⟩ := ih up.1 up.2 (by rw [hs])
        constructor
        · rw [hrest]; rfl
        · intro hmem
          rcases List.mem_cons.mp hmem with he | hm
          · exact hb he.symm
          · exact hnot hm

/-! ## Request-line scanner lemmas -/

theorem drop_takeWhile_length (p : Char → Bool) (l : List Char) :
    l.drop (l.takeWhile p).length = l.dropWhile p := by
  induction l with
  | nil => rfl
  | cons a l ih =>
    by_cases hpa : p a
    · simpa [List.takeWhile_cons, List.dropWhile_cons, hpa] using ih
    · simp [List.takeWhile_cons, List.dropWhile_cons, hpa]

theorem takeWhile_dropWhile_nil (p : Char → Bool) (l : List Char) :
    (l.dropWhile p).takeWhile p = [] := by
  induction l with
  | nil => rfl
  | cons a l ih =>
    by_cases hpa : p a
    · simpa [List.dropWhile_cons, hpa] using ih
    · simp [List.dropWhile_cons, List.takeWhile_cons, hpa]

theorem takeWhile_append_all (p : Char → Bool) (a b : List Char)
    (h : ∀ x ∈ a, p x = true) :
    (a ++ b).takeWhile p = a ++ b.takeWhile p := by
  induction a with
  | nil => simp
  | cons c a ih =>
    have hc : p c = true := h c (List.mem_cons_self c a)
    simp [List.takeWhile_cons, hc,
          ih (fun x hx => h x (List.mem_cons_of_mem c hx))]

/-- `run1` unfolded to its canonical form. -/
theorem run1_eq (l : List Char) :
    run1 l = (l.dropWhile isSpaceC).takeWhile nonWsC := rfl

/-- `rest1` is everything from the first whitespace after the first run. -/
theorem rest1_eq (l : List Char) :
    rest1 l = (l.dropWhile isSpaceC).dropWhile nonWsC :=
  drop_takeWhile_length nonWsC (l.dropWhile isSpaceC)

/-- `scanTok` in canonical form. -/
theorem scanTok_eq (l : List Char) (w : Nat) :
    scanTok l w = (((l.dropWhile isSpaceC).takeWhile nonWsC).take w,
      (l.dropWhile isSpaceC).drop
        (((l.dropWhile isSpaceC).takeWhile nonWsC).take w).length) := rfl

/-- A `%Ns` conversion whose field is wide enough consumes the whole first
run. -/
theorem scanTok_short (l : List Char) (w : Nat)
    (h : (run1 l).length ≤ w) :
    scanTok l w = (run1 l, rest1 l) := by
  rw [scanTok_eq, rest1_eq]
  rw [show ((l.dropWhile isSpaceC).takeWhile nonWsC) = run1 l from rfl]
  rw [List.take_of_length_le h]
  rw [show (l.dropWhile isSpaceC).drop (run1 l).length = rest1 l from rfl,
      rest1_eq]

/-- No run at all: the first `%15s` matches nothing and `sscanf` stops. -/
theorem scan3_none_noRun (line : List Char) (hA : run1 line = []) :
    scan3 line = none := by
  have hm : scanTok line 15 = (run1 line, rest1 line) :=
    scanTok_short line 15 (by rw [hA]; simp)
  simp only [scan3, hm]
  simp [hA]

/-- A single short run (at most 15 + 1023 characters) yields at most two
tokens. -/
theorem scan3_none_oneRun (line : List Char) (hB2 : run2 line = [])
    (hBlen : (run1 line).length ≤ 1038) : scan3 line = none := by
  by_cases hA : run1 line = []
  · exact scan3_none_noRun line hA
  by_cases h15 : (run1 line).length ≤ 15
  · -- token1 = whole run; token2 scans `rest1`, whose first run is `run2`
    have hm : scanTok line 15 = (run1 line, rest1 line) :=
      scanTok_short line 15 h15
    have hu : scanTok (rest1 line) 1023 = (run2 line, rest1 (rest1 line)) :=
      scanTok_short (rest1 line) 1023 (by rw [show run1 (rest1 line) = run2 line from rfl, hB2]; simp)
    simp only [scan3, hm]
    simp [hA, hu, hB2]
  · -- token1 = first 15 characters of the run, token2 = its remainder,
    -- token3 scans `rest1`, whose first run is `run2`
    have h15a : 15 < (run1 line).length := by omega
    have hm : scanTok line 15 =
        ((run1 line).take 15, (line.dropWhile isSpaceC).drop 15) := by
      rw [scanTok_eq]
      rw [show ((line.dropWhile isSpaceC).takeWhile nonWsC) = run1 line
          from rfl]
      rw [List.length_take, Nat.min_eq_left (by omega)]
    have hsplit : line.dropWhile isSpaceC =
        run1 line ++ (line.dropWhile isSpaceC).dropWhile nonWsC := by
      conv_lhs => rw [← List.takeWhile_append_dropWhile (p := nonWsC)
        (l := line.dropWhile isSpaceC)]
      rfl
    have hdrop15 : (line.dropWhile isSpaceC).drop 15 =
        (run1 line).drop 15 ++ (line.dropWhile isSpaceC).dropWhile nonWsC := by
      conv_lhs => rw [hsplit]
      exact List.drop_append_of_le_length (by omega)
    have hall : ∀ x ∈ (run1 line).drop 15, nonWsC x = true := fun x hx =>
      List.mem_takeWhile_imp (List.mem_of_mem_drop hx)
    obtain ⟨c, cs, hcons⟩ : ∃ c cs, (run1 line).drop 15 = c :: cs := by
      cases hd : (run1 line).drop 15 with
      | nil =>
        exfalso
        have := congrArg List.length hd
        rw [List.length_drop] at this
        simp at this
        omega
      | cons c cs => exact ⟨c, cs, rfl⟩
    have hcws : isSpaceC c = false := by
      have := hall c (by rw [hcons]; exact List.mem_cons_self c cs)
      simpa [nonWsC] using this
    have hx1 : ((line.dropWhile isSpaceC).drop 15).dropWhile isSpaceC =
        (line.dropWhile isSpaceC).drop 15 := by
      rw [hdrop15, hcons, List.cons_append, List.dropWhile_cons, hcws]
      simp
    have hx2 : ((line.dropWhile isSpaceC).drop 15).takeWhile nonWsC =
        (run1 line).drop 15 := by
      rw [hdrop15, takeWhile_append_all nonWsC _ _ hall,
          takeWhile_dropWhile_nil]
      simp
    have hlen2 : ((run1 line).drop 15).length ≤ 1023 := by
      rw [List.length_drop]; omega
    have hu : scanTok ((line.dropWhile isSpaceC).drop 15) 1023 =
        ((run1 line).drop 15,
         ((line.dropWhile isSpaceC).drop 15).drop
           ((run1 line).drop 15).length) := by
      rw [scanTok_eq, hx1, hx2, List.take_of_length_le hlen2]
    have hu2 : ((line.dropWhile isSpaceC).drop 15).drop
        ((run1 line).drop 15).length = rest1 line := by
      rw [List.drop_drop, List.length_drop,
          show 15 + ((run1 line).length - 15) = (run1 line).length by omega]
      rfl
    have hpr : (scanTok (rest1 line) 15).1 = [] := by
      rw [scanTok_eq]
      rw [show ((rest1 line).dropWhile isSpaceC).takeWhile nonWsC =
          run2 line from rfl, hB2]
      simp
    have hne1 : (run1 line).take 15 ≠ [] := by
      intro he
      have h0 := congrArg List.length he
      rw [List.length_take, Nat.min_eq_left (by omega : 15 ≤ (run1 line).length)] at h0
      simp at h0
    have hne2 : (run1 line).drop 15 ≠ [] := by rw [hcons]; simp
    have hu3 : scanTok ((line.dropWhile isSpaceC).drop 15) 1023 =
        ((run1 line).drop 15, rest1 line) := by rw [hu, hu2]
    simp only [scan3, hm]
    rw [if_neg hne1, hu3]
    rw [if_neg hne2, hpr]
    simp

/-- Two short runs (at most 15 and 1023 characters) yield exactly two
tokens. -/
theorem scan3_none_twoRuns (line : List Char) (h3 : run3 line = [])
    (h1 : (run1 line).length ≤ 15) (h2 : (run2 line).length ≤ 1023) :
    scan3 line = none := by
  by_cases hA : run1 line = []
  · exact scan3_none_noRun line hA
  by_cases hB2 : run2 line = []
  · exact scan3_none_oneRun line hB2 (by omega)
  have hm : scanTok line 15 = (run1 line, rest1 line) :=
    scanTok_short line 15 h1
  have hu : scanTok (rest1 line) 1023 = (run2 line, rest2 line) :=
    scanTok_short (rest1 line) 1023 h2
  have hpr : (scanTok (rest2 line) 15).1 = [] := by
    rw [scanTok_eq]
    rw [show ((rest2 line).dropWhile isSpaceC).takeWhile nonWsC =
        run3 line from rfl, h3]
    simp
  simp only [scan3, hm]
  simp [hA, hu, hB2, hpr]

/-- Fewer than three width-capped tokens means `sscanf` fails. -/
theorem scan3_eq_none_of_malformed (line : List Char)
    (h : malformedLine line) : scan3 line = none := by
  rcases h with hA | ⟨hB2, hBlen⟩ | ⟨h3, h1, h2⟩
  · exact scan3_none_noRun line hA
  · exact scan3_none_oneRun line hB2 hBlen
  · exact scan3_none_twoRuns line h3 h1 h2

/-! ## Response-header lemmas -/

theorem renderHeaders_contains (r : Resp) :
    ("Connection: close\r\n".data <:+: renderHeaders r) ∧
    (("Content-Length: ".data ++ (toString r.clen).data ++ "\r\n".data) <:+:
      renderHeaders r) := by
  constructor
  · refine ⟨"HTTP/1.1 ".data ++ (toString r.code).data ++ " ".data ++
      r.status.data ++ "\r\n".data ++ "Server: WebFS/0.1\r\n".data,
      "Content-Length: ".data ++ (toString r.clen).data ++ "\r\n".data ++
      (match r.ctype with
       | some t => "Content-Type: ".data ++ t.data ++ "\r\n".data
       | none => []) ++
      (match r.extra with
       | some e => e.data
       | none => []) ++
      "\r\n".data, ?_⟩
    simp [renderHeaders, send_headers_str, List.append_assoc]
  · refine ⟨"HTTP/1.1 ".data ++ (toString r.code).data ++ " ".data ++
      r.status.data ++ "\r\n".data ++ "Server: WebFS/0.1\r\n".data ++
      "Connection: close\r\n".data,
      (match r.ctype with
       | some t => "Content-Type: ".data ++ t.data ++ "\r\n".data
       | none => []) ++
      (match r.extra with
       | some e => e.data
       | none => []) ++
      "\r\n".data, ?_⟩
    simp [renderHeaders, send_headers_str, List.append_assoc]

theorem api_list_ctype (fs : FS) (root reqpath : String) :
    (api_list fs root reqpath).ctype.isSome = true := by
  simp only [api_list]
  split
  · rfl
  · split <;> rfl

theorem api_download_ctype (fs : FS) (root reqpath : String) :
    (api_download fs root reqpath).ctype.isSome = true := by
  simp only [api_download]
  split <;> rfl

theorem api_upload_ctype (fs : FS) (root reqpath : String) (B : List Nat) :
    (api_upload fs root reqpath B).2.ctype.isSome = true := by
  simp only [api_upload]
  split
  · rfl
  · split <;> rfl

theorem api_delete_ctype (fs : FS) (root reqpath : String) :
    (api_delete fs root reqpath).2.code ≠ 204 →
    (api_delete fs root reqpath).2.ctype.isSome = true := by
  simp only [api_delete]
  split
  · intro _; rfl
  · split
    · intro h; exact absurd rfl h
    · intro _; rfl
  · intro h; exact absurd rfl h

theorem route_request_ctype (cfg : Config) (fs : FS) (req : HttpReq) :
    ∀ r ∈ (route_request cfg fs req).1,
      r.code ≠ 204 → r.ctype.isSome = true := by
  intro r hr
  have hmem : ∀ (x : Resp) (s : FS),
      r ∈ (([x], s) : List Resp × FS).1 → r = x := fun x s h => by
    simpa using h
  simp only [route_request] at hr
  split at hr
  · have hx := hmem _ _ hr; subst hx; intro _; rfl
  · split at hr
    · split at hr
      · have hx := hmem _ _ hr; subst hx; exact fun _ => api_list_ctype _ _ _
      · have hx := hmem _ _ hr; subst hx; exact fun _ => api_list_ctype _ _ _
    · split at hr
      · split at hr
        · have hx := hmem _ _ hr; subst hx; intro _; rfl
        · have hx := hmem _ _ hr; subst hx
          exact fun _ => api_download_ctype _ _ _
      · split at hr
        · split at hr
          · have hx := hmem _ _ hr; subst hx; intro _; rfl
          · have hx := hmem _ _ hr; subst hx
            exact fun _ => api_upload_ctype _ _ _ _
        · split at hr
          · split at hr
            · have hx := hmem _ _ hr; subst hx; intro _; rfl
            · have hx := hmem _ _ hr; subst hx; intro _; rfl
          · split at hr
            · split at hr
              · have hx := hmem _ _ hr; subst hx; intro _; rfl
              · have hx := hmem _ _ hr; subst hx
                exact api_delete_ctype _ _ _
            · have hx := hmem _ _ hr; subst hx; intro _; rfl

/-! ## Claim theorems -/

/-- C1: the path-confinement claim fails on the code.  `join_path` collapses
`..` over the concatenation of root and request path, so with the
multi-segment root `/srv/data` the request `/../x` pops the root's own
`data` segment and resolves to `/srv/x`, which is not textually prefixed by
the root. -/
theorem join_path_escapes_root :
    join_path "/srv/data" "/../x" = "/srv/x" ∧
    "/srv/data".data.isPrefixOf (join_path "/srv/data" "/../x").data
      = false := by
  decide

/-- Unfolding of the auth check on a present header value. -/
theorem check_some_eq (guser gpass : String) (value0 : List Char) :
    check_basic_auth_header true guser gpass (some value0) =
      (if ciPrefixL "Basic ".data (stripAuthPrefix value0) then
        match splitColon
            (cstrB (b64dec_simple ((stripAuthPrefix value0).drop 6))) with
        | none => false
        | some (u, p) =>
          decide (u = strBytes guser) && decide (p = strBytes gpass)
      else false) := rfl

/-- C2 counterexample: the authorization check is not an if-and-only-if on
"the value begins with `Basic `": a value that instead begins with a
literal `Authorization:` prefix is also accepted when the credentials
match, although it does not begin with `Basic ` even case-insensitively. -/
theorem auth_prefix_counterexample :
    check_basic_auth_header true "u" "p"
      (some "Authorization: Basic dTpw".data) = true ∧
    ciPrefixL "Basic ".data "Authorization: Basic dTpw".data = false := by
  decide

/-- C2 (amended): with auth enabled, a request value is authorized iff,
after skipping an optional literal `Authorization:` prefix, it begins with
`Basic ` (case-insensitive) and the lenient base64 decode of the remainder
(non-alphabet bytes skipped, first 255 bytes, C-string truncated) splits at
its first `:` into exactly the configured user and password; a missing
header is rejected; and a connection whose parsed request fails the check
receives exactly one response: `401 Unauthorized` carrying the
`WWW-Authenticate: Basic` challenge header. -/
theorem check_auth_amended :
    (∀ (guser gpass : String) (value0 : List Char),
      check_basic_auth_header true guser gpass (some value0) = true ↔
        basicAuthSpec guser gpass value0) ∧
    (∀ guser gpass : String,
      check_basic_auth_header true guser gpass none = false) ∧
    (∀ (cfg : Config) (fs : FS) (net : List Char) (req : HttpReq),
      net.take 8192 ≠ [] →
      parse_request (net.take 8192) (net.drop 8192) = some req →
      check_basic_auth_header cfg.auth cfg.user cfg.pass
        (header_get req.headers "Authorization") = false →
      (conn_thread cfg fs net).1 = [resp401] ∧
      resp401.code = 401 ∧
      resp401.extra = some "WWW-Authenticate: Basic realm=\"WebFS\"\r\n") := by
  refine ⟨?_, fun _ _ => rfl, ?_⟩
  · intro guser gpass value0
    rw [check_some_eq]
    constructor
    · intro h
      by_cases hbp : ciPrefixL "Basic ".data (stripAuthPrefix value0) = true
      · rw [if_pos hbp] at h
        cases hs : splitColon
            (cstrB (b64dec_simple ((stripAuthPrefix value0).drop 6))) with
        | none => rw [hs] at h; cases h
        | some up =>
          rw [hs] at h
          have h2 : (decide (up.1 = strBytes guser) &&
              decide (up.2 = strBytes gpass)) = true := h
          obtain ⟨hu, hp⟩ := Bool.and_eq_true_iff.mp h2
          obtain ⟨hdec, h58⟩ := splitColon_spec _ up.1 up.2 (by rw [hs])
          exact ⟨hbp, up.1, up.2, hdec, h58,
                 of_decide_eq_true hu, of_decide_eq_true hp⟩
      · rw [if_neg hbp] at h
        cases h
    · rintro ⟨hbp, u, p, hdec, h58, hu, hp⟩
      rw [if_pos hbp]
      have hs : splitColon
          (cstrB (b64dec_simple ((stripAuthPrefix value0).drop 6))) =
          some (u, p) := by
        rw [hdec]
        exact splitColon_some_of u p h58
      rw [hs]
      show (decide (u = strBytes guser) && decide (p = strBytes gpass)) = true
      rw [hu, hp]
      simp
  · intro cfg fs net req hne hparse hcheck
    refine ⟨?_, rfl, rfl⟩
    simp only [conn_thread]
    rw [if_neg hne]
    simp [hparse, hcheck]

/-- Witness for C2 at concrete inputs: the iff at a matching `Basic`
value, rejection of a missing header, and the 401-with-challenge response
on a concrete unauthenticated connection. -/
theorem check_auth_amended_witness :
    (check_basic_auth_header true "u" "p" (some "Basic dTpw".data) = true ↔
      basicAuthSpec "u" "p" "Basic dTpw".data) ∧
    check_basic_auth_header true "u" "p" none = false ∧
    ((conn_thread ⟨"/", "u", "p", true, "X"⟩ []
        "GET / HTTP/1.1\r\n\r\n".data).1 = [resp401] ∧
     resp401.code = 401 ∧
     resp401.extra = some "WWW-Authenticate: Basic realm=\"WebFS\"\r\n") := by
  refine ⟨check_auth_amended.1 "u" "p" _, check_auth_amended.2.1 "u" "p", ?_⟩
  exact check_auth_amended.2.2 ⟨"/", "u", "p", true, "X"⟩ []
    "GET / HTTP/1.1\r\n\r\n".data
    ⟨"GET".data, "/".data, "HTTP/1.1".data, [], []⟩
    (by decide) (by decide) (by decide)

/-- C3: uploading a nonempty body `B` to client path `P` with a `201
Created` answer and then downloading `P` yields `200` with exactly the
bytes `B` and a `Content-Length` equal to `B`'s length. -/
theorem upload_download_roundtrip (fs : FS) (root P : String) (B : List Nat)
    (hB : B ≠ [])
    (h201 : (api_upload fs root P B).2.code = 201) :
    (api_download (api_upload fs root P B).1 root P).code = 200 ∧
    (api_download (api_upload fs root P B).1 root P).body = B ∧
    (api_download (api_upload fs root P B).1 root P).clen = B.length := by
  have hlen : ¬ (B.length = 0) := fun h0 => hB (List.length_eq_zero.mp h0)
  cases hot : openTarget (mkdirAll fs [] (segsOf (join_path root P)).dropLast)
      (segsOf (join_path root P)) with
  | none =>
    exfalso
    have h500 : (api_upload fs root P B).2.code = 500 := by
      simp only [api_upload, if_neg hlen, hot]
    omega
  | some k =>
    have hpair : api_upload fs root P B =
        (setNode (mkdirAll fs [] (segsOf (join_path root P)).dropLast) k
          (Node.file B), respCreated) := by
      simp only [api_upload, if_neg hlen, hot]
    obtain ⟨hres, hk⟩ := openTarget_spec _ _ _ hot
    have hknil : k ≠ [] := by
      intro he
      subst he
      rcases hk with hk | ⟨c, hk⟩
      · rw [lookupFS] at hk; simp at hk
      · rw [lookupFS] at hk; simp at hk
    have hres2 : resolveKey
        (setNode (mkdirAll fs [] (segsOf (join_path root P)).dropLast) k
          (Node.file B)) (segsOf (join_path root P)) 40 = some k :=
      resolveKey_setNode _ _ k (Node.file B) 40 hres
        (fun t hcon => Node.noConfusion hcon)
    have hlook : lookupFS
        (setNode (mkdirAll fs [] (segsOf (join_path root P)).dropLast) k
          (Node.file B)) k = some (Node.file B) :=
      lookupFS_setNode_self _ k _ hknil
    have hstat : statNode
        (setNode (mkdirAll fs [] (segsOf (join_path root P)).dropLast) k
          (Node.file B)) (segsOf (join_path root P)) = some (Node.file B) := by
      unfold statNode
      rw [hres2]
      exact hlook
    have hgoal : api_download
        (setNode (mkdirAll fs [] (segsOf (join_path root P)).dropLast) k
          (Node.file B)) root P =
        ⟨200, "OK", some (ctypeFor (join_path root P)), B.length, none, B⟩ := by
      simp only [api_download, hstat]
    rw [hpair]
    simp [hgoal]

/-- Witness for C3 at a concrete input. -/
theorem upload_download_roundtrip_witness :
    ([104, 105] : List Nat) ≠ [] ∧
    (api_upload [] "/" "/a/b/f.txt" [104, 105]).2.code = 201 ∧
    ((api_download (api_upload [] "/" "/a/b/f.txt" [104, 105]).1 "/"
        "/a/b/f.txt").code = 200 ∧
     (api_download (api_upload [] "/" "/a/b/f.txt" [104, 105]).1 "/"
        "/a/b/f.txt").body = [104, 105] ∧
     (api_download (api_upload [] "/" "/a/b/f.txt" [104, 105]).1 "/"
        "/a/b/f.txt").clen = ([104, 105] : List Nat).length) :=
  ⟨by decide, by decide,
   upload_download_roundtrip [] "/" "/a/b/f.txt" [104, 105]
     (by decide) (by decide)⟩

/-- C5: `api_mkdir` always answers `201 Created`, and a second call on the
same path answers `201` again and leaves the filesystem state exactly as
after the first call (parent-closure of the state, true of every real
filesystem, is the frame hypothesis). -/
theorem mkdir_idempotent (fs : FS) (root reqpath : String)
    (hwf : wellFormed fs) :
    (api_mkdir fs root reqpath).2.code = 201 ∧
    (api_mkdir (api_mkdir fs root reqpath).1 root reqpath).2.code = 201 ∧
    (api_mkdir (api_mkdir fs root reqpath).1 root reqpath).1 =
      (api_mkdir fs root reqpath).1 :=
  ⟨rfl, rfl, mkdirAll_idem (segsOf (join_path root reqpath)) fs [] hwf⟩

/-- Witness for C5 at a concrete input. -/
theorem mkdir_idempotent_witness :
    wellFormed ([] : FS) ∧
    ((api_mkdir [] "/" "/a/b").2.code = 201 ∧
     (api_mkdir (api_mkdir [] "/" "/a/b").1 "/" "/a/b").2.code = 201 ∧
     (api_mkdir (api_mkdir [] "/" "/a/b").1 "/" "/a/b").1 =
       (api_mkdir [] "/" "/a/b").1) := by
  have hwf : wellFormed ([] : FS) := by
    intro p hp hne
    exact absurd
      (show lookupFS ([] : FS) p = none by simp [lookupFS, hp, assocFind]) hne
  exact ⟨hwf, mkdir_idempotent [] "/" "/a/b" hwf⟩

/-- C4: download semantics.  When the resolved path does not exist (per
`stat`, symlinks followed) or is a directory, the response is `404`;
otherwise it is `200` with the full contents, `Content-Length` equal to the
file size, and the `Content-Type` inferred from the extension, which obeys
the table `.html`/`.htm` → text/html, `.txt` → text/plain, `.json` →
application/json, `.jpg`/`.jpeg` → image/jpeg, `.png` → image/png (matched
case-insensitively), anything else or no extension →
application/octet-stream. -/
theorem download_semantics (fs : FS) (root reqpath : String) :
    ((statNode fs (segsOf (join_path root reqpath)) = none ∨
      statNode fs (segsOf (join_path root reqpath)) = some Node.dir) →
      api_download fs root reqpath = dlNotFound) ∧
    (∀ c, statNode fs (segsOf (join_path root reqpath)) =
        some (Node.file c) →
      api_download fs root reqpath =
        ⟨200, "OK", some (ctypeFor (join_path root reqpath)), c.length,
         none, c⟩) ∧
    (∀ s : String,
      (lastDotSuffix s.data = none →
        ctypeFor s = "application/octet-stream") ∧
      (∀ e, lastDotSuffix s.data = some e →
        ((e.map toLowerC = ".html".data ∨ e.map toLowerC = ".htm".data) →
          ctypeFor s = "text/html") ∧
        (e.map toLowerC = ".txt".data → ctypeFor s = "text/plain") ∧
        (e.map toLowerC = ".json".data → ctypeFor s = "application/json") ∧
        ((e.map toLowerC = ".jpg".data ∨ e.map toLowerC = ".jpeg".data) →
          ctypeFor s = "image/jpeg") ∧
        (e.map toLowerC = ".png".data → ctypeFor s = "image/png") ∧
        (e.map toLowerC ≠ ".html".data → e.map toLowerC ≠ ".htm".data →
         e.map toLowerC ≠ ".txt".data → e.map toLowerC ≠ ".json".data →
         e.map toLowerC ≠ ".jpg".data → e.map toLowerC ≠ ".jpeg".data →
         e.map toLowerC ≠ ".png".data →
          ctypeFor s = "application/octet-stream"))) := by
  refine ⟨?_, ?_, ?_⟩
  · intro h
    rcases h with h | h <;> simp only [api_download, h]
  · intro c h
    simp only [api_download, h]
  · intro s
    constructor
    · intro h
      unfold ctypeFor
      rw [h]
    · intro e he
      refine ⟨?_, ?_, ?_, ?_, ?_, ?_⟩
      · intro h1
        rcases h1 with h1 | h1
        · have q1 : ciEqL e ".html".data = true := by
            simp only [ciEqL, h1]; decide
          unfold ctypeFor
          rw [he]
          simp [q1]
        · have q1 : ciEqL e ".html".data = false := by
            simp only [ciEqL, h1]; decide
          have q2 : ciEqL e ".htm".data = true := by
            simp only [ciEqL, h1]; decide
          unfold ctypeFor
          rw [he]
          simp [q1, q2]
      · intro h1
        have q1 : ciEqL e ".html".data = false := by
          simp only [ciEqL, h1]; decide
        have q2 : ciEqL e ".htm".data = false := by
          simp only [ciEqL, h1]; decide
        have q3 : ciEqL e ".txt".data = true := by
          simp only [ciEqL, h1]; decide
        unfold ctypeFor
        rw [he]
        simp [q1, q2, q3]
      · intro h1
        have q1 : ciEqL e ".html".data = false := by
          simp only [ciEqL, h1]; decide
        have q2 : ciEqL e ".htm".data = false := by
          simp only [ciEqL, h1]; decide
        have q3 : ciEqL e ".txt".data = false := by
          simp only [ciEqL, h1]; decide
        have q4 : ciEqL e ".json".data = true := by
          simp only [ciEqL, h1]; decide
        unfold ctypeFor
        rw [he]
        simp [q1, q2, q3, q4]
      · intro h1
        rcases h1 with h1 | h1
        · have q1 : ciEqL e ".html".data = false := by
            simp only [ciEqL, h1]; decide
          have q2 : ciEqL e ".htm".data = false := by
            simp only [ciEqL, h1]; decide
          have q3 : ciEqL e ".txt".data = false := by
            simp only [ciEqL, h1]; decide
          have q4 : ciEqL e ".json".data = false := by
            simp only [ciEqL, h1]; decide
          have q5 : ciEqL e ".jpg".data = true := by
            simp only [ciEqL, h1]; decide
          unfold ctypeFor
          rw [he]
          simp [q1, q2, q3, q4, q5]
        · have q1 : ciEqL e ".html".data = false := by
            simp only [ciEqL, h1]; decide
          have q2 : ciEqL e ".htm".data = false := by
            simp only [ciEqL, h1]; decide
          have q3 : ciEqL e ".txt".data = false := by
            simp only [ciEqL, h1]; decide
          have q4 : ciEqL e ".json".data = false := by
            simp only [ciEqL, h1]; decide
          have q5 : ciEqL e ".jpg".data = false := by
            simp only [ciEqL, h1]; decide
          have q6 : ciEqL e ".jpeg".data = true := by
            simp only [ciEqL, h1]; decide
          unfold ctypeFor
          rw [he]
          simp [q1, q2, q3, q4, q5, q6]
      · intro h1
        have q1 : ciEqL e ".html".data = false := by
          simp only [ciEqL, h1]; decide
        have q2 : ciEqL e ".htm".data = false := by
          simp only [ciEqL, h1]; decide
        have q3 : ciEqL e ".txt".data = false := by
          simp only [ciEqL, h1]; decide
        have q4 : ciEqL e ".json".data = false := by
          simp only [ciEqL, h1]; decide
        have q5 : ciEqL e ".jpg".data = false := by
          simp only [ciEqL, h1]; decide
        have q6 : ciEqL e ".jpeg".data = false := by
          simp only [ciEqL, h1]; decide
        have q7 : ciEqL e ".png".data = true := by
          simp only [ciEqL, h1]; decide
        unfold ctypeFor
        rw [he]
        simp [q1, q2, q3, q4, q5, q6, q7]
      · intro h1 h2 h3 h4 h5 h6 h7
        have q1 : ciEqL e ".html".data = false := by
          simp only [ciEqL]
          rw [show List.map toLowerC ".html".data = ".html".data by decide]
          exact decide_eq_false h1
        have q2 : ciEqL e ".htm".data = false := by
          simp only [ciEqL]
          rw [show List.map toLowerC ".htm".data = ".htm".data by decide]
          exact decide_eq_false h2
        have q3 : ciEqL e ".txt".data = false := by
          simp only [ciEqL]
          rw [show List.map toLowerC ".txt".data = ".txt".data by decide]
          exact decide_eq_false h3
        have q4 : ciEqL e ".json".data = false := by
          simp only [ciEqL]
          rw [show List.map toLowerC ".json".data = ".json".data by decide]
          exact decide_eq_false h4
        have q5 : ciEqL e ".jpg".data = false := by
          simp only [ciEqL]
          rw [show List.map toLowerC ".jpg".data = ".jpg".data by decide]
          exact decide_eq_false h5
        have q6 : ciEqL e ".jpeg".data = false := by
          simp only [ciEqL]
          rw [show List.map toLowerC ".jpeg".data = ".jpeg".data by decide]
          exact decide_eq_false h6
        have q7 : ciEqL e ".png".data = false := by
          simp only [ciEqL]
          rw [show List.map toLowerC ".png".data = ".png".data by decide]
          exact decide_eq_false h7
        unfold ctypeFor
        rw [he]
        simp [q1, q2, q3, q4, q5, q6, q7]

/-- Witness for C4: a directory answers `404`, a `.txt` file answers `200`
with its bytes and size, and the table yields `text/plain` for `.txt`. -/
theorem download_semantics_witness :
    (statNode [(["d"], Node.dir), (["x.txt"], Node.file [104])]
        (segsOf (join_path "/" "/d")) = some Node.dir ∧
     api_download [(["d"], Node.dir), (["x.txt"], Node.file [104])] "/" "/d"
       = dlNotFound) ∧
    (statNode [(["d"], Node.dir), (["x.txt"], Node.file [104])]
        (segsOf (join_path "/" "/x.txt")) = some (Node.file [104]) ∧
     api_download [(["d"], Node.dir), (["x.txt"], Node.file [104])] "/"
       "/x.txt" =
       ⟨200, "OK", some (ctypeFor (join_path "/" "/x.txt")),
        ([104] : List Nat).length, none, [104]⟩) ∧
    ctypeFor "/x.txt" = "text/plain" := by
  refine ⟨⟨by decide, ?_⟩, ⟨by decide, ?_⟩, ?_⟩
  · exact (download_semantics [(["d"], Node.dir), (["x.txt"], Node.file
      [104])] "/" "/d").1 (Or.inr (by decide))
  · exact (download_semantics [(["d"], Node.dir), (["x.txt"], Node.file
      [104])] "/" "/x.txt").2.1 [104] (by decide)
  · exact (((download_semantics [] "/" "/x.txt").2.2 "/x.txt").2 ".txt".data
      (by decide)).2.1 (by decide)

/-- C6: whenever the resolved path does not `stat` to a directory (it is
missing, a file, or an unresolvable symlink), `api_list` answers `200 OK`
with body exactly `[]`, never an error status. -/
theorem list_missing_empty (fs : FS) (root reqpath : String)
    (h : statNode fs (segsOf (join_path root reqpath)) ≠ some Node.dir) :
    api_list fs root reqpath =
      ⟨200, "OK", some "application/json; charset=utf-8", 2, none,
       strBytes "[]"⟩ := by
  cases hr : resolveKey fs (segsOf (join_path root reqpath)) 40 with
  | none => simp only [api_list, hr]
  | some k =>
    have hsk : statNode fs (segsOf (join_path root reqpath)) =
        lookupFS fs k := by
      unfold statNode
      rw [hr]
    cases hl : lookupFS fs k with
    | none => simp only [api_list, hr, hl]
    | some nd =>
      cases nd with
      | dir => exact absurd (hsk.trans hl) h
      | file c => simp only [api_list, hr, hl]
      | symlink t => simp only [api_list, hr, hl]

/-- Witness for C6 at a concrete input. -/
theorem list_missing_empty_witness :
    statNode ([] : FS) (segsOf (join_path "/" "/does/not/exist")) ≠
      some Node.dir ∧
    api_list [] "/" "/does/not/exist" =
      ⟨200, "OK", some "application/json; charset=utf-8", 2, none,
       strBytes "[]"⟩ :=
  ⟨by decide, list_missing_empty [] "/" "/does/not/exist" (by decide)⟩

/-- C10: `api_delete` classifies with `lstat`, so a symbolic link — even one
whose target is a directory — takes the `unlink` branch: the response is
`204 No Content`, the link's own binding is removed, and every other
binding (in particular the link's target) is unchanged. -/
theorem delete_symlink_lstat (fs : FS) (root reqpath : String)
    (t : List String)
    (h : lookupFS fs (segsOf (join_path root reqpath)) =
      some (Node.symlink t)) :
    (api_delete fs root reqpath).2.code = 204 ∧
    lookupFS (api_delete fs root reqpath).1
      (segsOf (join_path root reqpath)) = none ∧
    (∀ q, q ≠ segsOf (join_path root reqpath) →
      lookupFS (api_delete fs root reqpath).1 q = lookupFS fs q) := by
  have hnil : segsOf (join_path root reqpath) ≠ [] := by
    intro he
    rw [he, lookupFS] at h
    simp at h
  have hpair : api_delete fs root reqpath =
      (removeKey fs (segsOf (join_path root reqpath)), resp204) := by
    simp only [api_delete, h]
  rw [hpair]
  exact ⟨rfl, lookupFS_removeKey_self fs _ hnil,
         fun q hq => lookupFS_removeKey_ne fs _ q hq⟩

/-- Witness for C10: deleting a symlink whose target is a directory. -/
theorem delete_symlink_lstat_witness :
    lookupFS [(["a"], Node.symlink ["b"]), (["b"], Node.dir)]
      (segsOf (join_path "/" "/a")) = some (Node.symlink ["b"]) ∧
    (api_delete [(["a"], Node.symlink ["b"]), (["b"], Node.dir)] "/"
      "/a").2.code = 204 ∧
    lookupFS (api_delete [(["a"], Node.symlink ["b"]), (["b"], Node.dir)]
      "/" "/a").1 (segsOf (join_path "/" "/a")) = none ∧
    lookupFS (api_delete [(["a"], Node.symlink ["b"]), (["b"], Node.dir)]
      "/" "/a").1 ["b"] =
      lookupFS [(["a"], Node.symlink ["b"]), (["b"], Node.dir)] ["b"] := by
  have h := delete_symlink_lstat
    [(["a"], Node.symlink ["b"]), (["b"], Node.dir)] "/" "/a" ["b"]
    (by decide)
  exact ⟨by decide, h.1, h.2.1, h.2.2 ["b"] (by decide)⟩

/-- C7 counterexample: the original "exactly three tokens" claim fails —
a request line with four whitespace-separated tokens parses successfully
(`sscanf` ignores everything after its third conversion) and the
connection is answered rather than dropped without a response. -/
theorem parse_four_tokens_accepted :
    (parse_request "GET / HTTP/1.1 extra\r\n\r\n".data []).isSome = true ∧
    run1 "GET / HTTP/1.1 extra".data = "GET".data ∧
    run2 "GET / HTTP/1.1 extra".data = "/".data ∧
    run3 "GET / HTTP/1.1 extra".data = "HTTP/1.1".data ∧
    run1 (rest1 (rest2 "GET / HTTP/1.1 extra".data)) = "extra".data ∧
    (conn_thread ⟨"/", "", "", false, "X"⟩ []
      "GET / HTTP/1.1 extra\r\n\r\n".data).1 ≠ [] := by
  decide

/-- C7 (amended): when the initial read holds no CRLF-terminated request
line, or its request line yields fewer than three tokens under `sscanf`'s
width-capped whitespace scanning (no run; one run of at most 15 + 1023
characters; or two runs of at most 15 and 1023 characters — longer runs
are split into several tokens), parsing fails and the connection is closed
without any response bytes. -/
theorem parse_malformed_amended (cfg : Config) (fs : FS) (net : List Char)
    (h : findSub (cstrC (net.take 8192)) "\r\n".data = none ∨
      ∃ i, findSub (cstrC (net.take 8192)) "\r\n".data = some i ∧
        malformedLine ((cstrC (net.take 8192)).take i)) :
    parse_request (net.take 8192) (net.drop 8192) = none ∧
    (conn_thread cfg fs net).1 = [] := by
  have hparse : parse_request (net.take 8192) (net.drop 8192) = none := by
    by_cases hbuf : net.take 8192 = []
    · simp [parse_request, hbuf]
    · rcases h with h | ⟨i, hi, hmal⟩
      · simp [parse_request, if_neg hbuf, h]
      · simp only [parse_request, if_neg hbuf, hi]
        rw [scan3_eq_none_of_malformed _ hmal]
  refine ⟨hparse, ?_⟩
  by_cases hbuf : net.take 8192 = []
  · simp [conn_thread, hbuf]
  · simp [conn_thread, if_neg hbuf, hparse]

/-- Witness for C7 at a concrete input: a single-token request line. -/
theorem parse_malformed_amended_witness :
    parse_request ("HELLO\r\n\r\n".data.take 8192)
      ("HELLO\r\n\r\n".data.drop 8192) = none ∧
    (conn_thread ⟨"/", "", "", false, "X"⟩ []
      "HELLO\r\n\r\n".data).1 = [] :=
  parse_malformed_amended ⟨"/", "", "", false, "X"⟩ [] "HELLO\r\n\r\n".data
    (Or.inr ⟨5, by decide, by decide⟩)

/-- C8: every response the connection worker produces carries a
`Connection: close` header and a `Content-Length` header (they are written
unconditionally by `send_headers`), and every response except the `204 No
Content` of a successful delete carries a `Content-Type` header (the only
call site passing `NULL` is the 204). -/
theorem response_header_invariant (cfg : Config) (fs : FS)
    (net : List Char) :
    ∀ r ∈ (conn_thread cfg fs net).1,
      ("Connection: close\r\n".data <:+: renderHeaders r) ∧
      (("Content-Length: ".data ++ (toString r.clen).data ++ "\r\n".data)
        <:+: renderHeaders r) ∧
      (r.code ≠ 204 → r.ctype.isSome = true) := by
  intro r hr
  refine ⟨(renderHeaders_contains r).1, (renderHeaders_contains r).2, ?_⟩
  by_cases hbuf : net.take 8192 = []
  · simp [conn_thread, hbuf] at hr
  · cases hp : parse_request (net.take 8192) (net.drop 8192) with
    | none => simp [conn_thread, hbuf, hp] at hr
    | some req =>
      by_cases hch : check_basic_auth_header cfg.auth cfg.user cfg.pass
          (header_get req.headers "Authorization") = true
      · have hroute : (conn_thread cfg fs net).1 =
            (route_request cfg fs req).1 := by
          simp [conn_thread, hbuf, hp, hch]
        rw [hroute] at hr
        exact route_request_ctype cfg fs req r hr
      · have hch2 : check_basic_auth_header cfg.auth cfg.user cfg.pass
            (header_get req.headers "Authorization") = false :=
          Bool.eq_false_iff.mpr hch
        simp [conn_thread, hbuf, hp, hch2] at hr
        subst hr
        intro _
        rfl

/-- Witness for C8 at a concrete input: the UI response of a concrete
unauthenticated `GET /`. -/
theorem response_header_invariant_witness :
    ("Connection: close\r\n".data <:+:
      renderHeaders (serve_index ⟨"/", "", "", false, "X"⟩)) ∧
    (("Content-Length: ".data ++
        (toString (serve_index ⟨"/", "", "", false, "X"⟩).clen).data ++
        "\r\n".data) <:+:
      renderHeaders (serve_index ⟨"/", "", "", false, "X"⟩)) ∧
    ((serve_index ⟨"/", "", "", false, "X"⟩).code ≠ 204 →
      (serve_index ⟨"/", "", "", false, "X"⟩).ctype.isSome = true) :=
  response_header_invariant ⟨"/", "", "", false, "X"⟩ []
    "GET / HTTP/1.1\r\n\r\n".data (serve_index ⟨"/", "", "", false, "X"⟩)
    (by decide)

/-- C9: the JSON-escaping claim fails on the code.  Listing a directory
containing an entry named `a"b`, the emitted body escapes the quote in the
`name` value but emits the `path` value raw: the escaped form of the path
is absent and the raw form — an unescaped `"` inside a JSON string — is
present, so the output is not well-formed JSON. -/
theorem list_path_unescaped :
    (api_list [(["a\"b"], Node.file [65])] "/" "/").body =
      strBytes
        "[\x7b\"name\":\"a\\\"b\",\"path\":\"/a\"b\",\"type\":\"file\",\"size\":1\x7d]" ∧
    (strBytes ("\"name\":\"" ++ ⟨jesc "a\"b".data⟩ ++ "\"")) <:+:
      (api_list [(["a\"b"], Node.file [65])] "/" "/").body ∧
    ¬ ((strBytes ("\"path\":\"" ++ ⟨jesc "/a\"b".data⟩ ++ "\"")) <:+:
      (api_list [(["a\"b"], Node.file [65])] "/" "/").body) ∧
    (strBytes "\"path\":\"/a\"b\"") <:+:
      (api_list [(["a\"b"], Node.file [65])] "/" "/").body := by
  decide

end WebFS
